import Mathlib

set_option maxRecDepth 100000

/-!
# Verification of the PBL byte-buffer primitives (pbl.c)

Shallow embedding of the variable-length integer codec
(`pbl_LongToVarBuf`, `pbl_VarBufToLong`, `pbl_LongSize`, `pbl_VarBufSize`)
and the buffer comparison primitives (`pbl_memcmp`, `pbl_memcmplen`)
from `pbl.c`.

Modelling conventions:
* A byte buffer (`unsigned char *`) is a `List Nat`; a dereference of an
  `unsigned char` yields a value in `0..255`, modelled by reducing the list
  entry mod 256 at each read (`byteAt`); a store of an `unsigned char`
  reduces the stored value mod 256.
* `size_t` arguments are `Nat` (the C type is unsigned; lengths are passed
  separately from the list holding the bytes, as in the C signatures).
* `int` is the 32-bit two's-complement type of every platform the library
  targets; a conversion of an unsigned value to `int` is modelled by
  `toInt32` (two's-complement truncation, the universal implementation-defined
  behaviour), and `int` arithmetic wraps via `wrapInt32`.
* `unsigned long` values are `Nat`; the codec claims restrict them to
  `[0, 2^32-1]`.
* The C library's `memcmp(l, r, n)` is modelled by `c_memcmp`, returning the
  difference of the first unequal byte pair (a valid `memcmp`: only its sign
  is specified by the C standard, and only the sign is used by `pbl_memcmp`).
-/

/-- One byte read through an `unsigned char *` at offset `i`:
the entry reduced mod 256 (out-of-range model reads give 0). -/
def byteAt (buffer : List Nat) (i : Nat) : Nat := buffer.getD i 0 % 256

/-- `pbl_BufToLong`: read a four byte long from a four byte buffer,
`(buf[0] << 24) | (buf[1] << 16) | (buf[2] << 8) | buf[3]`. -/
def pbl_BufToLong (buf : List Nat) : Nat :=
  (byteAt buf 0) <<< 24 ||| (byteAt buf 1) <<< 16 ||| (byteAt buf 2) <<< 8 ||| byteAt buf 3

/-- `pbl_LongToVarBuf buffer value`: copy a four byte long to a variable
length buffer.  Returns the updated buffer and the number of bytes used
(the C function writes through `buffer` and returns the count). -/
def pbl_LongToVarBuf (buffer : List Nat) (value : Nat) : List Nat × Nat :=
  if value ≤ 0x7f then
    (buffer.set 0 (value % 256), 1)
  else if value ≤ 0x3fff then
    ((buffer.set 0 (((value >>> 8) ||| 0x80) % 256)).set 1 (value % 256), 2)
  else if value ≤ 0x1fffff then
    (((buffer.set 0 (((value >>> 16) ||| 0x80 ||| 0x40) % 256)).set 1
        ((value >>> 8) % 256)).set 2 (value % 256), 3)
  else if value ≤ 0x0fffffff then
    ((((buffer.set 0 (((value >>> 24) ||| 0x80 ||| 0x40 ||| 0x20) % 256)).set 1
        ((value >>> 16) % 256)).set 2 ((value >>> 8) % 256)).set 3 (value % 256), 4)
  else
    (((((buffer.set 0 0xf0).set 1 ((value >>> 24) % 256)).set 2
        ((value >>> 16) % 256)).set 3 ((value >>> 8) % 256)).set 4 (value % 256), 5)

/-- `pbl_VarBufToLong buffer`: read a four byte long from a variable length
buffer.  Returns `(value, bytesConsumed)` (the C function stores the value
through an out pointer and returns the count). -/
def pbl_VarBufToLong (buffer : List Nat) : Nat × Nat :=
  let c := 0xff &&& byteAt buffer 0
  if c &&& 0x80 = 0 then
    (c, 1)
  else if c &&& 0x40 = 0 then
    ((c &&& 0x3f) * 0x100 + (byteAt buffer 1 &&& 0xff), 2)
  else if c &&& 0x20 = 0 then
    ((c &&& 0x1f) * 0x10000 + (byteAt buffer 1 &&& 0xff) * 0x100
      + (byteAt buffer 2 &&& 0xff), 3)
  else if c &&& 0x10 = 0 then
    ((c &&& 0x0f) * 0x1000000 + (byteAt buffer 1 &&& 0xff) * 0x10000
      + (byteAt buffer 2 &&& 0xff) * 0x100 + (byteAt buffer 3 &&& 0xff), 4)
  else
    (pbl_BufToLong (buffer.drop 1), 5)

/-- `pbl_LongSize value`: how many bytes a four byte long would use
in a variable length buffer. -/
def pbl_LongSize (value : Nat) : Nat :=
  if value ≤ 0x7f then 1
  else if value ≤ 0x3fff then 2
  else if value ≤ 0x1fffff then 3
  else if value ≤ 0x0fffffff then 4
  else 5

/-- `pbl_VarBufSize buffer`: how many bytes a four byte long uses in a
variable length buffer, determined from the first byte only. -/
def pbl_VarBufSize (buffer : List Nat) : Nat :=
  let c := 0xff &&& byteAt buffer 0
  if c &&& 0x80 = 0 then 1
  else if c &&& 0x40 = 0 then 2
  else if c &&& 0x20 = 0 then 3
  else if c &&& 0x10 = 0 then 4
  else 5

/-- Two's-complement truncation of an unsigned value to a 32-bit `int`
(the implementation-defined conversion every targeted platform performs). -/
def toInt32 (n : Nat) : Int :=
  if n % 2 ^ 32 < 2 ^ 31 then ((n % 2 ^ 32 : Nat) : Int)
  else ((n % 2 ^ 32 : Nat) : Int) - 2 ^ 32

/-- Two's-complement wrap-around of 32-bit `int` arithmetic. -/
def wrapInt32 (z : Int) : Int := (z + 2 ^ 31) % 2 ^ 32 - 2 ^ 31

/-- The C library's `memcmp(l, r, n)` on byte buffers: difference of the
first unequal byte pair among the first `n` bytes, 0 if they all agree. -/
def c_memcmp : List Nat → List Nat → Nat → Int
  | _, _, 0 => 0
  | l, r, n + 1 =>
    if byteAt l 0 ≠ byteAt r 0 then (byteAt l 0 : Int) - (byteAt r 0 : Int)
    else c_memcmp l.tail r.tail n

/-- `pbl_memcmp left llen right rlen`: compare two memory buffers.
A zero length buffer is smaller than any other buffer; otherwise the first
`min llen rlen` bytes are compared with `memcmp`; on a tie the C source
returns `(int)((int)llen - ((int)rlen))`. -/
def pbl_memcmp (left : List Nat) (llen : Nat) (right : List Nat) (rlen : Nat) : Int :=
  if llen = 0 then
    if rlen = 0 then 0 else -1
  else if rlen = 0 then 1
  else
    let len := if llen ≤ rlen then llen else rlen
    let rc := c_memcmp left right len
    if rc ≠ 0 then rc
    else wrapInt32 (toInt32 llen - toInt32 rlen)

/-- The scan loop of `pbl_memcmplen`: count equal leading byte pairs,
stopping at the first unequal pair or after `n` bytes. -/
def memcmplenAux : List Nat → List Nat → Nat → Nat
  | _, _, 0 => 0
  | l, r, n + 1 =>
    if byteAt l 0 ≠ byteAt r 0 then 0
    else memcmplenAux l.tail r.tail n + 1

/-- `pbl_memcmplen left llen right rlen`: how many starting bytes of two
buffers are equal.  The C loop counter is an `unsigned int` returned as
`int`, modelled by `toInt32`; the model is faithful for
`min llen rlen < 2^32`, where the unsigned counter does not wrap. -/
def pbl_memcmplen (left : List Nat) (llen : Nat) (right : List Nat) (rlen : Nat) : Int :=
  let llen' := if llen > rlen then rlen else llen
  toInt32 (memcmplenAux left right llen')

/-! ## Helper lemmas about bytes and bit operations -/

theorem byteAt_cons_zero (a : Nat) (l : List Nat) : byteAt (a :: l) 0 = a % 256 := rfl

theorem byteAt_cons_one (a b : Nat) (l : List Nat) : byteAt (a :: b :: l) 1 = b % 256 := rfl

theorem byteAt_cons_two (a b c : Nat) (l : List Nat) :
    byteAt (a :: b :: c :: l) 2 = c % 256 := rfl

theorem byteAt_cons_three (a b c d : Nat) (l : List Nat) :
    byteAt (a :: b :: c :: d :: l) 3 = d % 256 := rfl

theorem and_ff_left : ∀ x < 256, 0xff &&& x = x := by decide

theorem and_ff_right : ∀ x < 256, x &&& 0xff = x := by decide

theorem tag_bits_one : ∀ a < 0x80, a &&& 0x80 = 0 := by decide

theorem tag_bits_two : ∀ a < 0x40,
    (a ||| 0x80) = a + 0x80 ∧ (a + 0x80) &&& 0x80 ≠ 0 ∧
    (a + 0x80) &&& 0x40 = 0 ∧ (a + 0x80) &&& 0x3f = a := by decide

theorem tag_bits_three : ∀ a < 0x20,
    (a ||| 0x80 ||| 0x40) = a + 0xc0 ∧ (a + 0xc0) &&& 0x80 ≠ 0 ∧
    (a + 0xc0) &&& 0x40 ≠ 0 ∧ (a + 0xc0) &&& 0x20 = 0 ∧
    (a + 0xc0) &&& 0x1f = a := by decide

theorem tag_bits_four : ∀ a < 0x10,
    (a ||| 0x80 ||| 0x40 ||| 0x20) = a + 0xe0 ∧ (a + 0xe0) &&& 0x80 ≠ 0 ∧
    (a + 0xe0) &&& 0x40 ≠ 0 ∧ (a + 0xe0) &&& 0x20 ≠ 0 ∧
    (a + 0xe0) &&& 0x10 = 0 ∧ (a + 0xe0) &&& 0x0f = a := by decide

/-- Bitwise or of a multiple of `2^k` with a value below `2^k` is addition. -/
theorem lor_mul_two_pow (k : Nat) :
    ∀ x a : Nat, a < 2 ^ k → (x * 2 ^ k) ||| a = x * 2 ^ k + a := by
  induction k with
  | zero =>
    intro x a ha
    have h0 : a = 0 := by omega
    subst h0
    simp
  | succ k ih =>
    intro x a ha
    have ha2 : a / 2 < 2 ^ k := by
      rw [Nat.div_lt_iff_lt_mul (by norm_num)]
      calc a < 2 ^ (k + 1) := ha
        _ = 2 ^ k * 2 := by rw [Nat.pow_succ]
    have hb := Nat.bit_decide_mod_two_eq_one_shiftRight_one a
    have hx : x * 2 ^ (k + 1) = Nat.bit false (x * 2 ^ k) := by
      simp [Nat.bit_val, Nat.pow_succ]
      ring
    rw [hx, ← hb, Nat.shiftRight_one, Nat.lor_bit, ih x (a / 2) ha2]
    simp only [Bool.false_or, Nat.bit_val, Nat.pow_succ]
    rcases Nat.mod_two_eq_zero_or_one a with h | h <;> simp [h] <;> omega

/-- The or-chain of `pbl_BufToLong` on four bytes is base-256 positional value. -/
theorem bufToLong_or_chain (a b c d : Nat) (hb : b < 256) (hc : c < 256) (hd : d < 256) :
    (a <<< 24) ||| (b <<< 16) ||| (c <<< 8) ||| d =
      ((a * 256 + b) * 256 + c) * 256 + d := by
  have hcd : (c <<< 8) ||| d = c * 256 + d := by
    rw [Nat.shiftLeft_eq]
    have h := lor_mul_two_pow 8 c d (by omega)
    rw [h]
    norm_num
  have hbcd : (b <<< 16) ||| ((c <<< 8) ||| d) = (b * 256 + c) * 256 + d := by
    rw [hcd, Nat.shiftLeft_eq]
    have h := lor_mul_two_pow 16 b (c * 256 + d) (by omega)
    rw [h]
    ring
  have habcd : (a <<< 24) ||| ((b <<< 16) ||| ((c <<< 8) ||| d)) =
      ((a * 256 + b) * 256 + c) * 256 + d := by
    rw [hbcd, Nat.shiftLeft_eq]
    have h := lor_mul_two_pow 24 a ((b * 256 + c) * 256 + d) (by omega)
    rw [h]
    ring
  rw [Nat.lor_assoc, Nat.lor_assoc, habcd]

/-- `pbl_VarBufSize` and the count returned by `pbl_VarBufToLong` run the very
same cascade of tag-bit tests on the first byte, on any buffer at all. -/
theorem varBufSize_eq_decode_consumed (buf : List Nat) :
    pbl_VarBufSize buf = (pbl_VarBufToLong buf).2 := by
  simp only [pbl_VarBufSize, pbl_VarBufToLong]
  split_ifs <;> rfl

/-- C2: encoding 300 writes exactly the bytes 0x81, 0x2c (leaving the rest of
the output buffer untouched), returns 2, and decoding [0x81, 0x2c] yields
(300, 2). -/
theorem encode300_bytes_decode300 :
    pbl_LongToVarBuf [7, 7, 7, 7, 7] 300 = ([0x81, 0x2c, 7, 7, 7], 2) ∧
    pbl_VarBufToLong [0x81, 0x2c] = (300, 2) := by decide

/-- C9: the decoder accepts the over-long encoding [0x80, 0x05] of the value 5,
returning (5, 2), although the encoder emits the single byte 0x05 for 5; hence
two distinct buffers decode to the same value and the encoder is not a left
inverse of the decoder on buffers. -/
theorem decode_accepts_overlong :
    pbl_VarBufToLong [0x80, 0x05] = (5, 2) ∧
    pbl_LongToVarBuf [9, 9, 9, 9, 9] 5 = ([5, 9, 9, 9, 9], 1) ∧
    pbl_VarBufToLong [0x05] = (5, 1) ∧
    ([0x80, 0x05] : List Nat) ≠ [0x05] := by decide

/-- C8: `pbl_LongSize` is the five-step width function: 1 exactly on
[0, 0x7f], 2 on [0x80, 0x3fff], 3 on [0x4000, 0x1fffff], 4 on
[0x200000, 0x0fffffff], 5 on [0x10000000, 0xffffffff]; and it is
non-decreasing on [0, 2^32-1]. -/
theorem longSize_step_function (v w : Nat) (hw : w ≤ 0xffffffff) (hvw : v ≤ w) :
    (pbl_LongSize v = 1 ↔ v ≤ 0x7f) ∧
    (pbl_LongSize v = 2 ↔ 0x80 ≤ v ∧ v ≤ 0x3fff) ∧
    (pbl_LongSize v = 3 ↔ 0x4000 ≤ v ∧ v ≤ 0x1fffff) ∧
    (pbl_LongSize v = 4 ↔ 0x200000 ≤ v ∧ v ≤ 0x0fffffff) ∧
    (pbl_LongSize v = 5 ↔ 0x10000000 ≤ v ∧ v ≤ 0xffffffff) ∧
    pbl_LongSize v ≤ pbl_LongSize w := by
  simp only [pbl_LongSize]
  split_ifs <;> omega

/-- Witness for `longSize_step_function` at v = 0x80, w = 0x4000. -/
theorem longSize_step_function_witness :
    (0x4000 ≤ 0xffffffff ∧ 0x80 ≤ 0x4000) ∧
    ((pbl_LongSize 0x80 = 1 ↔ 0x80 ≤ 0x7f) ∧
      (pbl_LongSize 0x80 = 2 ↔ 0x80 ≤ 0x80 ∧ 0x80 ≤ 0x3fff) ∧
      (pbl_LongSize 0x80 = 3 ↔ 0x4000 ≤ 0x80 ∧ 0x80 ≤ 0x1fffff) ∧
      (pbl_LongSize 0x80 = 4 ↔ 0x200000 ≤ 0x80 ∧ 0x80 ≤ 0x0fffffff) ∧
      (pbl_LongSize 0x80 = 5 ↔ 0x10000000 ≤ 0x80 ∧ 0x80 ≤ 0xffffffff) ∧
      pbl_LongSize 0x80 ≤ pbl_LongSize 0x4000) :=
  ⟨by decide, longSize_step_function 0x80 0x4000 (by decide) (by decide)⟩

/-- C5: a zero-length buffer compares strictly less than any buffer of nonzero
length, strictly greater the other way around, and equal to a zero-length
buffer — whatever the buffer contents are. -/
theorem memcmp_zero_length (left right : List Nat) (llen rlen : Nat)
    (hl : llen ≠ 0) (hr : rlen ≠ 0) :
    pbl_memcmp left 0 right rlen < 0 ∧
    pbl_memcmp left llen right 0 > 0 ∧
    pbl_memcmp left 0 right 0 = 0 := by
  simp only [pbl_memcmp]
  simp [hl, hr]

/-- Witness for `memcmp_zero_length` at left = [5], right = [1, 2],
llen = 3, rlen = 2. -/
theorem memcmp_zero_length_witness :
    ((3 : Nat) ≠ 0 ∧ (2 : Nat) ≠ 0) ∧
    (pbl_memcmp [5] 0 [1, 2] 2 < 0 ∧
      pbl_memcmp [5] 3 [1, 2] 0 > 0 ∧
      pbl_memcmp [5] 0 [1, 2] 0 = 0) :=
  ⟨by decide, memcmp_zero_length [5] [1, 2] 3 2 (by decide) (by decide)⟩

/-- C3: on every buffer produced by the encoder, `pbl_VarBufSize` returns
exactly the byte count that `pbl_VarBufToLong` reports as consumed, and
`pbl_VarBufSize` depends on the first byte only: two buffers with the same
first byte get the same size. -/
theorem varBufSize_agrees_with_decode (v : Nat) (buf b b' : List Nat)
    (h : byteAt b 0 = byteAt b' 0) :
    pbl_VarBufSize (pbl_LongToVarBuf buf v).1 =
      (pbl_VarBufToLong (pbl_LongToVarBuf buf v).1).2 ∧
    pbl_VarBufSize b = pbl_VarBufSize b' := by
  refine ⟨varBufSize_eq_decode_consumed _, ?_⟩
  simp only [pbl_VarBufSize, h]

/-- Witness for `varBufSize_agrees_with_decode` at v = 300 and two buffers
sharing the first byte. -/
theorem varBufSize_agrees_with_decode_witness :
    byteAt [0xc1, 2] 0 = byteAt [0xc1, 3, 4] 0 ∧
    (pbl_VarBufSize (pbl_LongToVarBuf [0, 0, 0, 0, 0] 300).1 =
        (pbl_VarBufToLong (pbl_LongToVarBuf [0, 0, 0, 0, 0] 300).1).2 ∧
      pbl_VarBufSize [0xc1, 2] = pbl_VarBufSize [0xc1, 3, 4]) :=
  ⟨by decide,
    varBufSize_agrees_with_decode 300 [0, 0, 0, 0, 0] [0xc1, 2] [0xc1, 3, 4] (by decide)⟩

/-- C10: `pbl_LongToVarBuf` only writes the first `w` buffer positions, where
`w` is its return value: every position at index ≥ `w` of a capacity-5 buffer
is left unchanged. -/
theorem longToVarBuf_frame (v : Nat) (buf : List Nat) (i : Nat)
    (h5 : 5 ≤ buf.length) (hi : (pbl_LongToVarBuf buf v).2 ≤ i) :
    (pbl_LongToVarBuf buf v).1[i]? = buf[i]? := by
  simp only [pbl_LongToVarBuf] at hi ⊢
  split_ifs at hi ⊢ <;>
    simp only [] at hi ⊢ <;>
    repeat rw [List.getElem?_set_ne (by omega)]

/-- Witness for `longToVarBuf_frame` at v = 5, buf = [1, 2, 3, 4, 5], i = 1. -/
theorem longToVarBuf_frame_witness :
    (5 ≤ ([1, 2, 3, 4, 5] : List Nat).length ∧
      (pbl_LongToVarBuf [1, 2, 3, 4, 5] 5).2 ≤ 1) ∧
    (pbl_LongToVarBuf [1, 2, 3, 4, 5] 5).1[1]? = ([1, 2, 3, 4, 5] : List Nat)[1]? :=
  ⟨⟨by decide, by decide⟩, longToVarBuf_frame 5 [1, 2, 3, 4, 5] 1 (by decide) (by decide)⟩

/-- C1: for every value in [0, 2^32-1] and every output buffer of capacity at
least 5, decoding the encoder's output returns the value together with the
encoder's byte count, and that count is exactly `pbl_LongSize` of the value. -/
theorem varBuf_roundTrip (v : Nat) (buf : List Nat)
    (hv : v ≤ 0xffffffff) (h5 : 5 ≤ buf.length) :
    pbl_VarBufToLong (pbl_LongToVarBuf buf v).1 = (v, (pbl_LongToVarBuf buf v).2) ∧
    (pbl_LongToVarBuf buf v).2 = pbl_LongSize v := by
  rcases buf with _ | ⟨b0, buf⟩
  · simp at h5
  rcases buf with _ | ⟨b1, buf⟩
  · simp at h5
  rcases buf with _ | ⟨b2, buf⟩
  · simp at h5
  rcases buf with _ | ⟨b3, buf⟩
  · simp at h5
  rcases buf with _ | ⟨b4, t⟩
  · simp at h5
  by_cases h1 : v ≤ 0x7f
  · -- one byte: 0xxxxxxx
    have henc : pbl_LongToVarBuf (b0 :: b1 :: b2 :: b3 :: b4 :: t) v
        = (v % 256 :: b1 :: b2 :: b3 :: b4 :: t, 1) := by
      unfold pbl_LongToVarBuf
      rw [if_pos h1]
      rfl
    rw [henc]
    refine ⟨?_, ?_⟩
    · simp only [pbl_VarBufToLong, byteAt_cons_zero]
      have hm : v % 256 % 256 = v := by omega
      rw [hm, and_ff_left v (by omega), if_pos (tag_bits_one v (by omega))]
    · unfold pbl_LongSize
      rw [if_pos h1]
  by_cases h2 : v ≤ 0x3fff
  · -- two bytes: 10xxxxxx
    have hs8 : v >>> 8 = v / 256 := by
      rw [Nat.shiftRight_eq_div_pow]
    obtain ⟨e1, e2, e3, e4⟩ := tag_bits_two (v / 256) (by omega)
    have henc : pbl_LongToVarBuf (b0 :: b1 :: b2 :: b3 :: b4 :: t) v
        = ((v / 256 + 0x80) :: v % 256 :: b2 :: b3 :: b4 :: t, 2) := by
      unfold pbl_LongToVarBuf
      rw [if_neg h1, if_pos h2, hs8, e1, Nat.mod_eq_of_lt (by omega)]
      rfl
    rw [henc]
    refine ⟨?_, ?_⟩
    · simp only [pbl_VarBufToLong, byteAt_cons_zero, byteAt_cons_one]
      have hm0 : (v / 256 + 0x80) % 256 = v / 256 + 0x80 := by omega
      have hm1 : v % 256 % 256 = v % 256 := by omega
      rw [hm0, hm1, and_ff_left _ (by omega), if_neg e2, if_pos e3, e4,
        and_ff_right _ (by omega)]
      refine Prod.ext ?_ rfl
      show v / 256 * 0x100 + v % 256 = v
      omega
    · unfold pbl_LongSize
      rw [if_neg h1, if_pos h2]
  by_cases h3 : v ≤ 0x1fffff
  · -- three bytes: 110xxxxx
    have hs16 : v >>> 16 = v / 65536 := by
      rw [Nat.shiftRight_eq_div_pow]
    have hs8 : v >>> 8 = v / 256 := by
      rw [Nat.shiftRight_eq_div_pow]
    obtain ⟨e1, e2, e3, e4, e5⟩ := tag_bits_three (v / 65536) (by omega)
    have henc : pbl_LongToVarBuf (b0 :: b1 :: b2 :: b3 :: b4 :: t) v
        = ((v / 65536 + 0xc0) :: v / 256 % 256 :: v % 256 :: b3 :: b4 :: t, 3) := by
      unfold pbl_LongToVarBuf
      rw [if_neg h1, if_neg h2, if_pos h3, hs16, hs8, e1, Nat.mod_eq_of_lt (by omega)]
      rfl
    rw [henc]
    refine ⟨?_, ?_⟩
    · simp only [pbl_VarBufToLong, byteAt_cons_zero, byteAt_cons_one, byteAt_cons_two]
      have hm0 : (v / 65536 + 0xc0) % 256 = v / 65536 + 0xc0 := by omega
      have hm1 : v / 256 % 256 % 256 = v / 256 % 256 := by omega
      have hm2 : v % 256 % 256 = v % 256 := by omega
      rw [hm0, hm1, hm2, and_ff_left _ (by omega), if_neg e2, if_neg e3, if_pos e4, e5,
        and_ff_right _ (by omega), and_ff_right _ (by omega)]
      refine Prod.ext ?_ rfl
      show v / 65536 * 0x10000 + v / 256 % 256 * 0x100 + v % 256 = v
      omega
    · unfold pbl_LongSize
      rw [if_neg h1, if_neg h2, if_pos h3]
  by_cases h4 : v ≤ 0x0fffffff
  · -- four bytes: 1110xxxx
    have hs24 : v >>> 24 = v / 16777216 := by
      rw [Nat.shiftRight_eq_div_pow]
    have hs16 : v >>> 16 = v / 65536 := by
      rw [Nat.shiftRight_eq_div_pow]
    have hs8 : v >>> 8 = v / 256 := by
      rw [Nat.shiftRight_eq_div_pow]
    obtain ⟨e1, e2, e3, e4, e5, e6⟩ := tag_bits_four (v / 16777216) (by omega)
    have henc : pbl_LongToVarBuf (b0 :: b1 :: b2 :: b3 :: b4 :: t) v
        = ((v / 16777216 + 0xe0) :: v / 65536 % 256 :: v / 256 % 256 ::
            v % 256 :: b4 :: t, 4) := by
      unfold pbl_LongToVarBuf
      rw [if_neg h1, if_neg h2, if_neg h3, if_pos h4, hs24, hs16, hs8, e1,
        Nat.mod_eq_of_lt (by omega)]
      rfl
    rw [henc]
    refine ⟨?_, ?_⟩
    · simp only [pbl_VarBufToLong, byteAt_cons_zero, byteAt_cons_one, byteAt_cons_two,
        byteAt_cons_three]
      have hm0 : (v / 16777216 + 0xe0) % 256 = v / 16777216 + 0xe0 := by omega
      have hm1 : v / 65536 % 256 % 256 = v / 65536 % 256 := by omega
      have hm2 : v / 256 % 256 % 256 = v / 256 % 256 := by omega
      have hm3 : v % 256 % 256 = v % 256 := by omega
      rw [hm0, hm1, hm2, hm3, and_ff_left _ (by omega), if_neg e2, if_neg e3, if_neg e4,
        if_pos e5, e6, and_ff_right _ (by omega), and_ff_right _ (by omega),
        and_ff_right _ (by omega)]
      refine Prod.ext ?_ rfl
      show v / 16777216 * 0x1000000 + v / 65536 % 256 * 0x10000 +
        v / 256 % 256 * 0x100 + v % 256 = v
      omega
    · unfold pbl_LongSize
      rw [if_neg h1, if_neg h2, if_neg h3, if_pos h4]
  · -- five bytes: fixed 0xf0 tag and the full value big-endian
    have hs24 : v >>> 24 = v / 16777216 := by
      rw [Nat.shiftRight_eq_div_pow]
    have hs16 : v >>> 16 = v / 65536 := by
      rw [Nat.shiftRight_eq_div_pow]
    have hs8 : v >>> 8 = v / 256 := by
      rw [Nat.shiftRight_eq_div_pow]
    have henc : pbl_LongToVarBuf (b0 :: b1 :: b2 :: b3 :: b4 :: t) v
        = (0xf0 :: v / 16777216 % 256 :: v / 65536 % 256 :: v / 256 % 256 ::
            v % 256 :: t, 5) := by
      unfold pbl_LongToVarBuf
      rw [if_neg h1, if_neg h2, if_neg h3, if_neg h4, hs24, hs16, hs8]
      rfl
    rw [henc]
    refine ⟨?_, ?_⟩
    · simp only [pbl_VarBufToLong, byteAt_cons_zero]
      have hc : (0xff : Nat) &&& 0xf0 % 256 = 0xf0 := by decide
      rw [hc, if_neg (by decide), if_neg (by decide), if_neg (by decide),
        if_neg (by decide)]
      refine Prod.ext ?_ rfl
      show pbl_BufToLong
        ((0xf0 :: v / 16777216 % 256 :: v / 65536 % 256 :: v / 256 % 256 ::
          v % 256 :: t).drop 1) = v
      have hdrop : (0xf0 :: v / 16777216 % 256 :: v / 65536 % 256 :: v / 256 % 256 ::
          v % 256 :: t).drop 1
          = v / 16777216 % 256 :: v / 65536 % 256 :: v / 256 % 256 :: v % 256 :: t := rfl
      rw [hdrop]
      unfold pbl_BufToLong
      rw [byteAt_cons_zero, byteAt_cons_one, byteAt_cons_two, byteAt_cons_three]
      have hm0 : v / 16777216 % 256 % 256 = v / 16777216 := by omega
      have hm1 : v / 65536 % 256 % 256 = v / 65536 % 256 := by omega
      have hm2 : v / 256 % 256 % 256 = v / 256 % 256 := by omega
      have hm3 : v % 256 % 256 = v % 256 := by omega
      rw [hm0, hm1, hm2, hm3,
        bufToLong_or_chain _ _ _ _ (by omega) (by omega) (by omega)]
      omega
    · unfold pbl_LongSize
      rw [if_neg h1, if_neg h2, if_neg h3, if_neg h4]

/-- Witness for `varBuf_roundTrip` at v = 0xabcdef (a four-byte value). -/
theorem varBuf_roundTrip_witness :
    (0xabcdef ≤ 0xffffffff ∧ 5 ≤ ([0, 0, 0, 0, 0] : List Nat).length) ∧
    (pbl_VarBufToLong (pbl_LongToVarBuf [0, 0, 0, 0, 0] 0xabcdef).1 =
        (0xabcdef, (pbl_LongToVarBuf [0, 0, 0, 0, 0] 0xabcdef).2) ∧
      (pbl_LongToVarBuf [0, 0, 0, 0, 0] 0xabcdef).2 = pbl_LongSize 0xabcdef) :=
  ⟨⟨by decide, by decide⟩, varBuf_roundTrip 0xabcdef [0, 0, 0, 0, 0] (by decide) (by decide)⟩

/-! ## Large-length behaviour of the comparison functions -/

theorem byteAt_replicate_zero (n : Nat) : byteAt (List.replicate n 0) 0 = 0 := by
  cases n <;> rfl

/-- `memcmp` of two all-zero buffers over one byte is 0. -/
theorem c_memcmp_replicate_zero_one (n m : Nat) :
    c_memcmp (List.replicate n 0) (List.replicate m 0) 1 = 0 := by
  unfold c_memcmp
  rw [byteAt_replicate_zero, byteAt_replicate_zero]
  simp [c_memcmp]

/-- The scan loop counts all `n` positions on two equal all-zero buffers. -/
theorem memcmplenAux_replicate_zero :
    ∀ n, memcmplenAux (List.replicate n 0) (List.replicate n 0) n = n := by
  intro n
  induction n with
  | zero => rfl
  | succ k ih =>
    rw [List.replicate_succ]
    unfold memcmplenAux
    simp only [byteAt_cons_zero, ne_eq, not_true_eq_false, if_false, List.tail_cons]
    rw [ih]

/-- C4 fails on the code: with leftLen = 2^31 + 2 > rightLen = 1 and the
single shared byte equal, `pbl_memcmp` returns the NEGATIVE value
-2147483647, because the C source computes `(int)((int)llen - ((int)rlen))`
and the truncation of 2^31 + 2 to a 32-bit int is negative. -/
theorem memcmp_length_truncation_bug :
    pbl_memcmp (List.replicate (2 ^ 31 + 2) 0) (2 ^ 31 + 2) (List.replicate 1 0) 1
      = -2147483647 ∧
    (1 : Nat) < 2 ^ 31 + 2 ∧
    byteAt (List.replicate (2 ^ 31 + 2) 0) 0 = byteAt (List.replicate 1 0) 0 := by
  refine ⟨?_, by norm_num, by rw [byteAt_replicate_zero, byteAt_replicate_zero]⟩
  unfold pbl_memcmp
  rw [if_neg (by norm_num : ¬(2 ^ 31 + 2 = 0)), if_neg (by norm_num : ¬(1 = 0))]
  simp only []
  rw [if_neg (by norm_num : ¬(2 ^ 31 + 2 ≤ 1))]
  rw [c_memcmp_replicate_zero_one]
  rw [if_neg (by norm_num)]
  unfold wrapInt32 toInt32
  norm_num

/-- C6 fails on the code: with lengths 1 and 2^31 + 1 and the single shared
byte equal, `pbl_memcmp` returns -2^31 in BOTH argument orders (the int
difference of the truncated lengths is ±2^31, which wraps to -2^31 either
way), so the two results are not sign-inverses. -/
theorem memcmp_antisymmetry_bug :
    pbl_memcmp (List.replicate 1 0) 1 (List.replicate (2 ^ 31 + 1) 0) (2 ^ 31 + 1)
      = -2147483648 ∧
    pbl_memcmp (List.replicate (2 ^ 31 + 1) 0) (2 ^ 31 + 1) (List.replicate 1 0) 1
      = -2147483648 := by
  constructor
  · unfold pbl_memcmp
    rw [if_neg (by norm_num : ¬(1 = 0)), if_neg (by norm_num : ¬(2 ^ 31 + 1 = 0))]
    simp only []
    rw [if_pos (by norm_num : (1 : Nat) ≤ 2 ^ 31 + 1)]
    rw [c_memcmp_replicate_zero_one]
    rw [if_neg (by norm_num)]
    unfold wrapInt32 toInt32
    norm_num
  · unfold pbl_memcmp
    rw [if_neg (by norm_num : ¬(2 ^ 31 + 1 = 0)), if_neg (by norm_num : ¬(1 = 0))]
    simp only []
    rw [if_neg (by norm_num : ¬(2 ^ 31 + 1 ≤ 1))]
    rw [c_memcmp_replicate_zero_one]
    rw [if_neg (by norm_num)]
    unfold wrapInt32 toInt32
    norm_num

/-- C7 fails on the code: on two identical all-zero buffers of length 2^31 the
scan agrees on all 2^31 leading bytes, but `pbl_memcmplen` returns the
NEGATIVE value -2^31, because the C source returns its `unsigned int` counter
through an `int` return type. -/
theorem memcmplen_return_truncation_bug :
    memcmplenAux (List.replicate (2 ^ 31) 0) (List.replicate (2 ^ 31) 0) (2 ^ 31)
      = 2 ^ 31 ∧
    pbl_memcmplen (List.replicate (2 ^ 31) 0) (2 ^ 31) (List.replicate (2 ^ 31) 0) (2 ^ 31)
      = -2147483648 := by
  refine ⟨memcmplenAux_replicate_zero _, ?_⟩
  unfold pbl_memcmplen
  simp only []
  rw [if_neg (by norm_num : ¬(2 ^ 31 > 2 ^ 31))]
  rw [memcmplenAux_replicate_zero]
  unfold toInt32
  norm_num

example : pbl_LongToVarBuf [0, 0, 0, 0, 0] 300 = ([0x81, 0x2c, 0, 0, 0], 2) := by decide
example : pbl_VarBufToLong [0x81, 0x2c] = (300, 2) := by decide
example : pbl_VarBufToLong [0x80, 0x05] = (5, 2) := by decide
example : pbl_LongToVarBuf [9, 9, 9, 9, 9] 5 = ([5, 9, 9, 9, 9], 1) := by decide
example : pbl_VarBufToLong [0xf0, 1, 2, 3, 4] = (0x01020304, 5) := by decide
example : pbl_LongToVarBuf [0, 0, 0, 0, 0] 0x12345678 =
    ([0xf0, 0x12, 0x34, 0x56, 0x78], 5) := by decide
example : pbl_VarBufToLong [0xf0, 0x12, 0x34, 0x56, 0x78] = (0x12345678, 5) := by decide
example : pbl_LongToVarBuf [0, 0, 0, 0, 0] 0x4000 = ([0xc0, 0x40, 0, 0, 0], 3) := by decide
example : pbl_VarBufToLong [0xc0, 0x40, 0] = (0x4000, 3) := by decide
example : pbl_LongToVarBuf [0, 0, 0, 0, 0] 0xabcdef = ([0xe0, 0xab, 0xcd, 0xef, 0], 4) := by
  decide
example : pbl_VarBufToLong [0xe0, 0xab, 0xcd, 0xef] = (0xabcdef, 4) := by decide
example : pbl_memcmp [1, 2] 2 [1, 2, 3] 3 = -1 := by decide
example : pbl_memcmp [] 0 [1, 2] 2 = -1 := by decide
example : pbl_memcmp [] 0 [] 0 = 0 := by decide
example : pbl_memcmplen [1, 2, 3] 3 [1, 2, 9] 3 = 2 := by decide
example : pbl_memcmplen [] 0 [1] 1 = 0 := by decide
